import Mathlib

/-!
A shallow embedding of the input-resolution, type-coercion and schema-validation
pipeline of the Replicate CLI (`src/utils/argument-parser.ts`: `parseInputArgs`,
`validateInput`), of the file-loading behaviour those functions rely on, and of
the authentication-recovery control flow of the `run` command
(`src/commands/run.ts` together with `BaseCommand.handleAuthError` in
`src/utils/command-base.ts`).

JavaScript strings are modelled as explicit character lists (`Str`), JavaScript
numbers as exact decimal values `mantissa * 10 ^ exponent` together with the
IEEE specials `NaN` and the two infinities (float rounding is not modelled; none
of the verified properties depends on it), and JavaScript objects as
insertion-ordered association lists with unique keys maintained by `setKey`.
The file system and `path.resolve` are passed in explicitly, so the embedded
`parseInputArgs` is a pure function of the file system and the argument list.
-/

namespace Replicate

/-- A JavaScript string, as its list of characters. -/
abbrev Str := List Char

/-- JavaScript `s.startsWith(p)`. -/
def jsStartsWith : Str → Str → Bool
  | _, [] => true
  | [], _ :: _ => false
  | c :: cs, d :: ds => c == d && jsStartsWith cs ds

/-- JavaScript `s.includes(c)` for a single character `c`. -/
def jsHasChar (s : Str) (c : Char) : Bool := s.any (· == c)

/-- JavaScript `s.split(sep)` for a single-character separator and no limit:
the result is always non-empty, and empty pieces are kept. -/
def jsSplit (sep : Char) : Str → List Str
  | [] => [[]]
  | c :: cs =>
    if c == sep then [] :: jsSplit sep cs
    else
      match jsSplit sep cs with
      | [] => [[c]]
      | p :: ps => (c :: p) :: ps

/-- JavaScript `pieces.join(sep)` for a single-character separator. -/
def jsJoin (sep : Char) : List Str → Str
  | [] => []
  | [p] => p
  | p :: q :: ps => p ++ sep :: jsJoin sep (q :: ps)

/-- The white-space characters recognised by `String.prototype.trim` (the ASCII
ones; the exotic Unicode space classes are not modelled). -/
def jsIsSpace (c : Char) : Bool :=
  c == ' ' || c == '\t' || c == '\n' || c == '\r' || c == '\x0b' || c == '\x0c'

/-- JavaScript `s.trim()`. -/
def jsTrim (s : Str) : Str :=
  ((s.dropWhile jsIsSpace).reverse.dropWhile jsIsSpace).reverse

/-- A JavaScript number: `NaN`, a signed infinity, or the exact value
`mantissa * 10 ^ exp10`. The representation is not normalised; all comparisons
go through the scale-free operations below. -/
inductive JSNum where
  | nan : JSNum
  | inf (neg : Bool) : JSNum
  | fin (mantissa : Int) (exp10 : Int) : JSNum
deriving DecidableEq, Repr

/-- Compare two finite decimal values after rescaling to a common exponent. -/
def finDecLt (m1 e1 m2 e2 : Int) : Bool :=
  if e1 ≤ e2 then
    if m1 < m2 * (10 : Int) ^ (e2 - e1).toNat then true else false
  else
    if m1 * (10 : Int) ^ (e1 - e2).toNat < m2 then true else false

/-- Semantic equality of two finite decimal values. -/
def finDecEq (m1 e1 m2 e2 : Int) : Bool :=
  if e1 ≤ e2 then
    if m1 = m2 * (10 : Int) ^ (e2 - e1).toNat then true else false
  else
    if m1 * (10 : Int) ^ (e1 - e2).toNat = m2 then true else false

/-- JavaScript `<` on numbers: any comparison with `NaN` is false. -/
def JSNum.ltb : JSNum → JSNum → Bool
  | .nan, _ => false
  | _, .nan => false
  | .inf true, .inf true => false
  | .inf true, _ => true
  | .inf false, _ => false
  | .fin _ _, .inf false => true
  | .fin _ _, .inf true => false
  | .fin m1 e1, .fin m2 e2 => finDecLt m1 e1 m2 e2

/-- JavaScript `===` on numbers: `NaN` is not equal to itself. -/
def JSNum.eqb : JSNum → JSNum → Bool
  | .nan, _ => false
  | _, .nan => false
  | .inf a, .inf b => a == b
  | .inf _, .fin _ _ => false
  | .fin _ _, .inf _ => false
  | .fin m1 e1, .fin m2 e2 => finDecEq m1 e1 m2 e2

/-- SameValueZero on numbers (the equality used by `Array.prototype.includes`):
like `===` except that `NaN` equals `NaN`. -/
def JSNum.svzEq : JSNum → JSNum → Bool
  | .nan, .nan => true
  | a, b => JSNum.eqb a b

/-- True exactly on `NaN`: JavaScript `isNaN` applied to a number. -/
def JSNum.isNaNb : JSNum → Bool
  | .nan => true
  | _ => false

/-- A JavaScript runtime value, restricted to the shapes that can flow through
the argument-parsing and validation pipeline. Arrays and objects compare by
reference in JavaScript; in this model two distinct syntactic occurrences are
never the same reference, which is what `sameValueZero` below encodes. -/
inductive JSValue where
  | undef : JSValue
  | null : JSValue
  | bool (b : Bool) : JSValue
  | num (n : JSNum) : JSValue
  | str (s : Str) : JSValue
  | arr (elems : List JSValue) : JSValue
  | obj (fields : List (Str × JSValue)) : JSValue

/-- The string produced by JavaScript `typeof`. -/
def typeofStr : JSValue → Str
  | .undef => "undefined".data
  | .null => "object".data
  | .bool _ => "boolean".data
  | .num _ => "number".data
  | .str _ => "string".data
  | .arr _ => "object".data
  | .obj _ => "object".data

/-- Decimal digit test. -/
def isDigitCh (c : Char) : Bool := '0' ≤ c && c ≤ '9'

/-- Numeric value of a decimal digit character. -/
def digitVal (c : Char) : Nat := c.toNat - '0'.toNat

/-- Value of a run of decimal digit characters. -/
def digitsToNat (ds : Str) : Nat := ds.foldl (fun a c => a * 10 + digitVal c) 0

/-- Decimal digit character of a value below ten. -/
def digitCh (n : Nat) : Char := Char.ofNat ('0'.toNat + n)

/-- Decimal digits of a natural number, fuelled so the recursion is structural
and kernel-reducible; the fuel `n + 1` always suffices. -/
def natDigitsAux : Nat → Nat → Str
  | 0, _ => []
  | fuel + 1, n =>
    if n < 10 then [digitCh n]
    else natDigitsAux fuel (n / 10) ++ [digitCh (n % 10)]

/-- Decimal digits of a natural number. -/
def natDigits (n : Nat) : Str := natDigitsAux (n + 1) n

/-- First value bound to a key in an association list (JavaScript property
lookup; the lists built by `setKey` have unique keys). -/
def lookupKey {α : Type} : List (Str × α) → Str → Option α
  | [], _ => none
  | (k', v) :: rest, k => if k' = k then some v else lookupKey rest k

/-- JavaScript property assignment `m[k] = v` on an association list: the first
entry with key `k` is overwritten in place, otherwise the entry is appended. -/
def setKey {α : Type} : List (Str × α) → Str → α → List (Str × α)
  | [], k, v => [(k, v)]
  | (k', v') :: rest, k, v =>
    if k' = k then (k, v) :: rest else (k', v') :: setKey rest k v

/-- JSON insignificant white space (RFC 8259: space, tab, line feed, carriage
return), skipped greedily. -/
def skipJsonWs : Str → Str
  | c :: cs =>
    if c == ' ' || c == '\t' || c == '\n' || c == '\r' then skipJsonWs cs
    else c :: cs
  | [] => []

/-- Longest leading run of decimal digits, with the remainder. -/
def takeDigitRun (s : Str) : Str × Str := (s.takeWhile isDigitCh, s.dropWhile isDigitCh)

/-- Parse a JSON number (`-? int frac? exp?`, with `int` either `0` or a
nonzero-leading digit run) from the front of the input. -/
def jsonParseNumber (s : Str) : Option (JSNum × Str) :=
  let signed : Bool × Str := match s with
    | '-' :: r => (true, r)
    | _ => (false, s)
  let intPart : Option (Str × Str) := match signed.2 with
    | '0' :: r => some (['0'], r)
    | c :: r =>
      if isDigitCh c && !(c == '0') then
        some (c :: (takeDigitRun r).1, (takeDigitRun r).2)
      else none
    | [] => none
  match intPart with
  | none => none
  | some (ip, r1) =>
    let fracPart : Option (Str × Str) := match r1 with
      | '.' :: r2 =>
        match takeDigitRun r2 with
        | ([], _) => none
        | (fp, r3) => some (fp, r3)
      | _ => some ([], r1)
    match fracPart with
    | none => none
    | some (fp, r4) =>
      let expPart : Option (Int × Str) := match r4 with
        | 'e' :: r5 | 'E' :: r5 =>
          let esigned : Bool × Str := match r5 with
            | '+' :: r6 => (false, r6)
            | '-' :: r6 => (true, r6)
            | _ => (false, r5)
          match takeDigitRun esigned.2 with
          | ([], _) => none
          | (eds, r7) =>
            some (if esigned.1 then -(digitsToNat eds : Int) else (digitsToNat eds : Int), r7)
        | _ => some (0, r4)
      match expPart with
      | none => none
      | some (e, rest) =>
        let mag : Nat := digitsToNat (ip ++ fp)
        let m : Int := if signed.1 then -(mag : Int) else (mag : Int)
        some (.fin m (e - fp.length), rest)

/-- Numeric value of a hexadecimal digit character, if any, computed on the
code point: `0`-`9` are 48-57, `A`-`F` are 65-70, `a`-`f` are 97-102. -/
def hexDigitVal (c : Char) : Option Nat :=
  let n := c.toNat
  if 48 ≤ n ∧ n ≤ 57 then some (n - 48)
  else if 65 ≤ n ∧ n ≤ 70 then some (n - 55)
  else if 97 ≤ n ∧ n ≤ 102 then some (n - 87)
  else none

/-- Body of a JSON string after the opening quote: handles the escapes of
RFC 8259 and stops at the closing quote. A `\u` escape becomes the character of
its code point (lone surrogates, which JavaScript strings allow but `Char`
cannot represent, are not modelled). -/
def jsonStringRest (acc : Str) : Str → Option (Str × Str)
  | '"' :: r => some (acc.reverse, r)
  | '\\' :: 'u' :: a :: b :: c :: d :: r =>
    match hexDigitVal a, hexDigitVal b, hexDigitVal c, hexDigitVal d with
    | some va, some vb, some vc, some vd =>
      jsonStringRest (Char.ofNat (((va * 16 + vb) * 16 + vc) * 16 + vd) :: acc) r
    | _, _, _, _ => none
  | '\\' :: e :: r =>
    match e with
    | '"' => jsonStringRest ('"' :: acc) r
    | '\\' => jsonStringRest ('\\' :: acc) r
    | '/' => jsonStringRest ('/' :: acc) r
    | 'b' => jsonStringRest (Char.ofNat 8 :: acc) r
    | 'f' => jsonStringRest (Char.ofNat 12 :: acc) r
    | 'n' => jsonStringRest ('\n' :: acc) r
    | 'r' => jsonStringRest ('\r' :: acc) r
    | 't' => jsonStringRest ('\t' :: acc) r
    | _ => none
  | c :: r => if c.toNat < 0x20 then none else jsonStringRest (c :: acc) r
  | [] => none

mutual

/-- Parse one JSON value from the front of the input (leading white space
allowed), fuelled so the recursion is structural; `jsonParse` supplies enough
fuel for any input it accepts. Objects are built with `setKey`, so a duplicated
member key keeps its first position and its last value, as in `JSON.parse`. -/
def jsonParseVal : Nat → Str → Option (JSValue × Str)
  | 0, _ => none
  | fuel + 1, s =>
    match skipJsonWs s with
    | 'n' :: 'u' :: 'l' :: 'l' :: r => some (.null, r)
    | 't' :: 'r' :: 'u' :: 'e' :: r => some (.bool true, r)
    | 'f' :: 'a' :: 'l' :: 's' :: 'e' :: r => some (.bool false, r)
    | '"' :: r =>
      match jsonStringRest [] r with
      | some (cs, rest) => some (.str cs, rest)
      | none => none
    | '[' :: r =>
      match skipJsonWs r with
      | ']' :: r2 => some (.arr [], r2)
      | r1 =>
        match jsonParseElems fuel r1 with
        | some (vs, rest) => some (.arr vs, rest)
        | none => none
    | '{' :: r =>
      match skipJsonWs r with
      | '}' :: r2 => some (.obj [], r2)
      | r1 =>
        match jsonParseMembers fuel r1 with
        | some (ms, rest) => some (.obj (ms.foldl (fun m kv => setKey m kv.1 kv.2) []), rest)
        | none => none
    | s' =>
      match jsonParseNumber s' with
      | some (n, rest) => some (.num n, rest)
      | none => none

/-- Parse the elements of a non-empty JSON array, up to and including `]`. -/
def jsonParseElems : Nat → Str → Option (List JSValue × Str)
  | 0, _ => none
  | fuel + 1, s =>
    match jsonParseVal fuel s with
    | none => none
    | some (v, r) =>
      match skipJsonWs r with
      | ',' :: r2 =>
        match jsonParseElems fuel r2 with
        | some (vs, rest) => some (v :: vs, rest)
        | none => none
      | ']' :: r2 => some ([v], r2)
      | _ => none

/-- Parse the members of a non-empty JSON object, up to and including `}`. -/
def jsonParseMembers : Nat → Str → Option (List (Str × JSValue) × Str)
  | 0, _ => none
  | fuel + 1, s =>
    match skipJsonWs s with
    | '"' :: r =>
      match jsonStringRest [] r with
      | none => none
      | some (k, r1) =>
        match skipJsonWs r1 with
        | ':' :: r2 =>
          match jsonParseVal fuel r2 with
          | none => none
          | some (v, r3) =>
            match skipJsonWs r3 with
            | ',' :: r4 =>
              match jsonParseMembers fuel r4 with
              | some (ms, rest) => some ((k, v) :: ms, rest)
              | none => none
            | '}' :: r4 => some ([(k, v)], r4)
            | _ => none
        | _ => none
    | _ => none

end

/-- JavaScript `JSON.parse(s)`, as a total function: `some v` when `s` is a
complete JSON document for `v`, `none` when `JSON.parse` would throw. -/
def jsonParse (s : Str) : Option JSValue :=
  match jsonParseVal (s.length + 1) s with
  | some (v, rest) => if skipJsonWs rest = [] then some v else none
  | none => none

/-- The ECMAScript `StrUnsignedDecimalLiteral` grammar used by `Number(...)`:
`Infinity`, `digits [. digits] [exp]`, or `. digits [exp]`, consuming the whole
input. More permissive than JSON numbers: leading zeros, a leading or trailing
point, and a missing integer part are all allowed. -/
def parseUnsignedDec (t : Str) : Option JSNum :=
  if t = "Infinity".data then some (.inf false)
  else
    let (ip, r1) := takeDigitRun t
    let withExp (mag : Nat) (fracLen : Nat) (r : Str) : Option JSNum :=
      match r with
      | [] => some (.fin (mag : Int) (-(fracLen : Int)))
      | 'e' :: r2 | 'E' :: r2 =>
        let esigned : Bool × Str := match r2 with
          | '+' :: r3 => (false, r3)
          | '-' :: r3 => (true, r3)
          | _ => (false, r2)
        match takeDigitRun esigned.2 with
        | ([], _) => none
        | (eds, r4) =>
          if r4 = [] then
            let e : Int := if esigned.1 then -(digitsToNat eds : Int) else (digitsToNat eds : Int)
            some (.fin (mag : Int) (e - fracLen))
          else none
      | _ => none
    match r1 with
    | '.' :: r2 =>
      let (fp, r3) := takeDigitRun r2
      if ip.isEmpty && fp.isEmpty then none
      else withExp (digitsToNat (ip ++ fp)) fp.length r3
    | _ =>
      if ip.isEmpty then none else withExp (digitsToNat ip) 0 r1

/-- Hexadecimal digit test. -/
def isHexCh (c : Char) : Bool := (hexDigitVal c).isSome

/-- Value of a run of hexadecimal digits. -/
def hexToNat (ds : Str) : Nat := ds.foldl (fun a c => a * 16 + (hexDigitVal c).getD 0) 0

/-- Binary digit test. -/
def isBinCh (c : Char) : Bool := c == '0' || c == '1'

/-- Octal digit test. -/
def isOctCh (c : Char) : Bool := '0' ≤ c && c ≤ '7'

/-- Value of a run of octal digits. -/
def octToNat (ds : Str) : Nat := ds.foldl (fun a c => a * 8 + digitVal c) 0

/-- Value of a run of binary digits. -/
def binToNat (ds : Str) : Nat := ds.foldl (fun a c => a * 2 + digitVal c) 0

/-- The ECMAScript `StrNumericLiteral` grammar on an already-trimmed non-empty
string: a non-decimal integer literal (`0x`, `0o`, `0b`, signless), or a
decimal literal with an optional sign. Anything else is `NaN`. -/
def strToNumBody (t : Str) : JSNum :=
  match t with
  | '0' :: 'x' :: r | '0' :: 'X' :: r =>
    if !r.isEmpty && r.all isHexCh then .fin (hexToNat r) 0 else .nan
  | '0' :: 'o' :: r | '0' :: 'O' :: r =>
    if !r.isEmpty && r.all isOctCh then .fin (octToNat r) 0 else .nan
  | '0' :: 'b' :: r | '0' :: 'B' :: r =>
    if !r.isEmpty && r.all isBinCh then .fin (binToNat r) 0 else .nan
  | '+' :: r => (parseUnsignedDec r).getD .nan
  | '-' :: r =>
    match parseUnsignedDec r with
    | some (.inf _) => .inf true
    | some (.fin m e) => .fin (-m) e
    | _ => .nan
  | _ => (parseUnsignedDec t).getD .nan

/-- JavaScript `Number(s)` on a string: trim, empty means zero, otherwise the
numeric-literal grammar or `NaN`. -/
def strToNumber (s : Str) : JSNum :=
  let t := jsTrim s
  if t.isEmpty then .fin 0 0 else strToNumBody t

/-- Decimal rendering of a finite JavaScript number (the `toString` used when a
number is interpolated into an error message). The huge/tiny magnitudes that
JavaScript would switch to scientific notation for are rendered plainly; no
verified property depends on those. -/
def numToStr : JSNum → Str
  | .nan => "NaN".data
  | .inf false => "Infinity".data
  | .inf true => "-Infinity".data
  | .fin m e =>
    let sign : Str := if m < 0 then ['-'] else []
    let mag := m.natAbs
    if mag = 0 then ['0']
    else if 0 ≤ e then sign ++ natDigits mag ++ List.replicate e.toNat '0'
    else
      let d := (-e).toNat
      let ds := natDigits mag
      if d < ds.length then
        sign ++ ds.take (ds.length - d) ++ '.' :: ds.drop (ds.length - d)
      else
        sign ++ '0' :: '.' :: List.replicate (d - ds.length) '0' ++ ds

mutual

/-- The string an element contributes to `Array.prototype.join`: `null` and
`undefined` become empty, everything else its JavaScript string conversion. -/
def joinStrOf : JSValue → Str
  | .undef => []
  | .null => []
  | .bool b => if b then "true".data else "false".data
  | .num n => numToStr n
  | .str s => s
  | .arr es => joinElems es
  | .obj _ => "[object Object]".data

/-- `Array.prototype.join` with the default `,` separator (the `toString` of an
array, hence its `ToPrimitive`). -/
def joinElems : List JSValue → Str
  | [] => []
  | [v] => joinStrOf v
  | v :: w :: vs => joinStrOf v ++ ',' :: joinElems (w :: vs)

end

/-- ECMAScript `ToNumber`, as invoked by the `<` and `>` comparisons in
`validateInput` when the compared value is not already a number. Plain objects
convert through `"[object Object]"`, hence to `NaN`. -/
def jsToNumber : JSValue → JSNum
  | .undef => .nan
  | .null => .fin 0 0
  | .bool b => .fin (if b then 1 else 0) 0
  | .num n => n
  | .str s => strToNumber s
  | .arr es => strToNumber (joinElems es)
  | .obj _ => .nan

/-- SameValueZero, the equality used by `Array.prototype.includes`. Arrays and
objects are compared by reference in JavaScript; a schema's `enum` members and
a freshly parsed input value are always distinct references, so those cases
are `false` here. -/
def sameValueZero : JSValue → JSValue → Bool
  | .undef, .undef => true
  | .null, .null => true
  | .bool a, .bool b => a == b
  | .num a, .num b => JSNum.svzEq a b
  | .str a, .str b => a == b
  | _, _ => false

/-- JavaScript `list.includes(v)`. -/
def jsIncludes (l : List JSValue) (v : JSValue) : Bool := l.any (fun w => sameValueZero w v)

/-- One property of the model's `Input` schema, as `validateInput` reads it:
the `type`, `enum`, `minimum` and `maximum` keys of the field's schema object,
each absent when the vendor schema omits it. -/
structure FieldSchema where
  type : Option Str := none
  enum : Option (List JSValue) := none
  minimum : Option JSNum := none
  maximum : Option JSNum := none

/-- The slice of the OpenAPI `Input` schema consumed by `validateInput`:
`schema?.properties || {}` and `schema?.required || []`. -/
structure SchemaD where
  properties : List (Str × FieldSchema) := []
  required : List Str := []

/-- Error message for a missing required field. -/
def msgMissing (field : Str) : Str := "Missing required field: ".data ++ field

/-- Error message for a type mismatch: names the field, the expected type and
the `typeof` of the actual value. -/
def msgType (key expected : Str) (v : JSValue) : Str :=
  "Field ".data ++ key ++ " must be a ".data ++ expected ++ ", got ".data ++ typeofStr v

/-- Error message for a value below the schema minimum. -/
def msgMin (key : Str) (m : JSNum) : Str :=
  "Field ".data ++ key ++ " must be >= ".data ++ numToStr m

/-- Error message for a value above the schema maximum. -/
def msgMax (key : Str) (m : JSNum) : Str :=
  "Field ".data ++ key ++ " must be <= ".data ++ numToStr m

/-- The string an element contributes to `enum.join(', ')`. -/
def joinWithCommaSpace : List JSValue → Str
  | [] => []
  | [v] => joinStrOf v
  | v :: w :: vs => joinStrOf v ++ ',' :: ' ' :: joinWithCommaSpace (w :: vs)

/-- Error message for a value outside the schema enum. -/
def msgEnum (key : Str) (l : List JSValue) : Str :=
  "Field ".data ++ key ++ " must be one of: ".data ++ joinWithCommaSpace l

/-- JavaScript `value < bound` where `bound` is a number: both sides go through
`ToNumber` (the bound already is one); `NaN` compares false. -/
def jsLtNum (v : JSValue) (bound : JSNum) : Bool := JSNum.ltb (jsToNumber v) bound

/-- JavaScript `value > bound` where `bound` is a number. -/
def jsGtNum (v : JSValue) (bound : JSNum) : Bool := JSNum.ltb bound (jsToNumber v)

/-- Runtime type test `typeof value === 'number'`. -/
def isNumberV : JSValue → Bool
  | .num _ => true
  | _ => false

/-- Runtime type test `typeof value === 'string'`. -/
def isStringV : JSValue → Bool
  | .str _ => true
  | _ => false

/-- Runtime type test `typeof value === 'boolean'`. -/
def isBoolV : JSValue → Bool
  | .bool _ => true
  | _ => false

/-- The errors `validateInput` pushes for one declared field that is present in
the input, in push order (`argument-parser.ts` lines 136-160). The branches are
exactly the source's: `'integer'`/`'number'` check the runtime type and then
the range bounds, `'string'` checks the runtime type and then the enum, and
`'boolean'` checks the runtime type; any other declared `type` (including
`'array'`) has no branch and produces no errors. -/
def fieldErrors (key : Str) (value : JSValue) (fs : FieldSchema) : List Str :=
  if fs.type = some "integer".data ∨ fs.type = some "number".data then
    (if isNumberV value then [] else [msgType key "number".data value]) ++
    (match fs.minimum with
     | some m => if jsLtNum value m then [msgMin key m] else []
     | none => []) ++
    (match fs.maximum with
     | some m => if jsGtNum value m then [msgMax key m] else []
     | none => [])
  else if fs.type = some "string".data then
    (if isStringV value then [] else [msgType key "string".data value]) ++
    (match fs.enum with
     | some l => if jsIncludes l value then [] else [msgEnum key l]
     | none => [])
  else if fs.type = some "boolean".data then
    (if isBoolV value then [] else [msgType key "boolean".data value])
  else []

/-- Does the required-field check fire for this looked-up value? True when the
field is absent, or present with `undefined` or `null`
(`argument-parser.ts` line 124). -/
def isMissingVal : Option JSValue → Bool
  | none => true
  | some .undef => true
  | some .null => true
  | some _ => false

/-- `validateInput` of `argument-parser.ts` (lines 114-167): first the
required-field pass over `schema.required`, then the per-field pass over the
input's entries, skipping entries whose key is not declared in
`schema.properties`; `valid` is `errors.length === 0`. -/
def validateInput (input : List (Str × JSValue)) (schema : SchemaD) : Bool × List Str :=
  let errs1 := schema.required.foldl
    (fun errs field =>
      if isMissingVal (lookupKey input field) then errs ++ [msgMissing field] else errs)
    []
  let errs2 := input.foldl
    (fun errs kv =>
      match lookupKey schema.properties kv.1 with
      | none => errs
      | some fs => errs ++ fieldErrors kv.1 kv.2 fs)
    errs1
  (errs2.isEmpty, errs2)

/-- Heuristic type coercion of one CLI value (`argument-parser.ts` lines
87-102): a full `JSON.parse` wins; otherwise the exact literals `true`, `false`
and `null`; otherwise `Number(value)` when it is not `NaN` and the trimmed
value is non-empty; otherwise the original string. Total: no input throws. -/
def coerceValue (value : Str) : JSValue :=
  match jsonParse value with
  | some v => v
  | none =>
    if value = "true".data then .bool true
    else if value = "false".data then .bool false
    else if value = "null".data then .null
    else if JSNum.isNaNb (strToNumber value) = false ∧ jsTrim value ≠ [] then
      .num (strToNumber value)
    else .str value

/-- The input-file detection loop of `parseInputArgs` (lines 56-64): the first
token starting with `--input-file=` contributes `token.split('=')[1]` — only
the part of the path before its first `=` — and the first bare `--input-file`
token followed by another token contributes that next token; scanning stops at
the first match. -/
def findInputFile : List Str → Option Str
  | [] => none
  | a :: rest =>
    if jsStartsWith a "--input-file=".data then some ((jsSplit '=' a).getD 1 [])
    else if a = "--input-file".data ∧ rest ≠ [] then some (rest.headD [])
    else findInputFile rest

/-- The per-token test and split of the `--key=value` loop (lines 82-85): a
token starting with `--`, containing `=`, and not starting with
`--input-file=`, is split on the first `=` only — the key is everything before
it and the value rejoins the remaining pieces, so `=` characters inside the
value survive. -/
def cliKeyVal (arg : Str) : Option (Str × Str) :=
  if jsStartsWith arg "--".data ∧ jsHasChar arg '=' ∧
      ¬ jsStartsWith arg "--input-file=".data then
    some ((jsSplit '=' (arg.drop 2)).headD [], jsJoin '=' (jsSplit '=' (arg.drop 2)).tail)
  else none

/-- The `--key=value` loop of `parseInputArgs` (lines 82-106) starting from the
entries already loaded from the input file: every matching token coerces its
value and assigns it, overwriting a same-named key in place. -/
def applyCliArgs (init : List (Str × JSValue)) (args : List Str) : List (Str × JSValue) :=
  args.foldl
    (fun m a =>
      match cliKeyVal a with
      | some kv => setKey m kv.1 (coerceValue kv.2)
      | none => m)
    init

/-- `Object.assign(target, src)`: copies the own enumerable properties of
`src` onto `target`. A parsed object contributes its fields; strings and
arrays contribute their indexed elements; the remaining primitives contribute
nothing. -/
def assignEntries (target : List (Str × JSValue)) : JSValue → List (Str × JSValue)
  | .obj fields => fields.foldl (fun m kv => setKey m kv.1 kv.2) target
  | .str s => (List.enum s).foldl (fun m p => setKey m (natDigits p.1) (.str [p.2])) target
  | .arr es => (List.enum es).foldl (fun m p => setKey m (natDigits p.1) p.2) target
  | _ => target

/-- The two failure modes of the input-file loading step of `parseInputArgs`:
`Input file not found: <resolved path>` (line 70) and
`Invalid JSON in input file: <parser error>` (line 77, which interpolates the
message of the caught `JSON.parse` exception; only the resolved path is
carried here). -/
inductive InputError where
  | fileNotFound (resolvedPath : Str) : InputError
  | invalidJson (resolvedPath : Str) : InputError
deriving DecidableEq

/-- The file system and `path.resolve`, passed in explicitly: `read` returns
the file's content when `fs.existsSync` holds and `none` otherwise. -/
structure FileSys where
  resolve : Str → Str
  read : Str → Option Str

/-- The file-loading stage of `parseInputArgs` (lines 52-79) over an explicit
file system: detect the input-file flag; when a non-empty path was found (the
source tests JavaScript truthiness, so the empty string counts as no file),
resolve it, fail if it does not exist, parse its content as JSON and
`Object.assign` the result into the fresh input object, failing if the content
is not valid JSON. -/
def loadFileInput (fs : FileSys) (args : List Str) : Except InputError (List (Str × JSValue)) :=
  match findInputFile args with
  | some f =>
    if f ≠ [] then
      match fs.read (fs.resolve f) with
      | none => .error (.fileNotFound (fs.resolve f))
      | some content =>
        match jsonParse content with
        | some v => .ok (assignEntries [] v)
        | none => .error (.invalidJson (fs.resolve f))
    else .ok []
  | none => .ok []

/-- The whole of `parseInputArgs`: the file stage above, then the
`--key=value` loop on top of its result. -/
def parseInputArgs (fs : FileSys) (args : List Str) : Except InputError (List (Str × JSValue)) :=
  match loadFileInput fs args with
  | .error e => .error e
  | .ok b => .ok (applyCliArgs b args)

/-- What one attempt of the body of `Run.run` (lines 56-134) does: succeed, or
throw an error that `handleAuthError` classifies as authentication-class
(`command-base.ts` lines 122-128), or throw any other error. The attempt is
indexed so that successive retries may behave differently. -/
inductive BodyOutcome where
  | ok : BodyOutcome
  | errAuth (msg : Str) : BodyOutcome
  | errOther (msg : Str) : BodyOutcome

/-- How one activation of `Run.run` ends: normal return, an error thrown by
`this.error` (which oclif raises to the caller), or fuel exhaustion of the
model (the source recursion has no such bound). -/
inductive RunResult where
  | success : RunResult
  | cliError (msg : Str) : RunResult
  | outOfFuel : RunResult
deriving DecidableEq

/-- What a run of the command did: its final result, the number of
`handleAuthError` recoveries performed by the outermost activation itself
(the catch block of lines 135-144 runs it at most once), the number of retries
(`return this.run()`) issued by the outermost activation itself, and the total
number of recoveries including those of nested retried activations. -/
structure RunTrace where
  result : RunResult
  directRecoveries : Nat
  directRetries : Nat
  totalRecoveries : Nat
deriving DecidableEq

/-- The error-handling skeleton of `Run.run` (lines 52-146): run the body; on
an error, `handleAuthError` either recovers (authentication-class: clears the
token, resets the client, re-prompts) and the command retries itself once via
`return this.run()`, or re-throws, in which case the catch-all reports the
original error through `this.error`. An error thrown by the retried activation
is caught by the outer catch-all, which reports the original message without
another recovery. `body k` is what the body does on the `k`-th attempt. -/
def runModel : Nat → (Nat → BodyOutcome) → Nat → RunTrace
  | 0, _, _ => ⟨.outOfFuel, 0, 0, 0⟩
  | fuel + 1, body, k =>
    match body k with
    | .ok => ⟨.success, 0, 0, 0⟩
    | .errOther msg =>
      ⟨.cliError ("Failed to create prediction: ".data ++ msg), 0, 0, 0⟩
    | .errAuth msg =>
      let t := runModel fuel body (k + 1)
      match t.result with
      | .cliError _ =>
        ⟨.cliError ("Failed to create prediction: ".data ++ msg), 1, 1, t.totalRecoveries + 1⟩
      | r => ⟨r, 1, 1, t.totalRecoveries + 1⟩

/-- One step of the `--key=value` loop. -/
def cliStep (m : List (Str × JSValue)) (a : Str) : List (Str × JSValue) :=
  match cliKeyVal a with
  | some kv => setKey m kv.1 (coerceValue kv.2)
  | none => m

/-! ### Decomposition of the validation report

The two imperative passes of `validateInput` push onto one shared `errors`
array. The definitions here rewrite each pass as a concatenation of per-item
contributions, which is the formal content of "no short-circuit": every item's
errors appear in the report regardless of what the other items produced. -/

/-- The contribution of one required-field check to the error list. -/
def reqOne (input : List (Str × JSValue)) (field : Str) : List Str :=
  if isMissingVal (lookupKey input field) then [msgMissing field] else []

/-- The contribution of one input entry to the error list: nothing when its
key is undeclared, its `fieldErrors` otherwise. -/
def entryOne (props : List (Str × FieldSchema)) (kv : Str × JSValue) : List Str :=
  match lookupKey props kv.1 with
  | none => []
  | some fs => fieldErrors kv.1 kv.2 fs

/-- All errors of the required-field pass, as a concatenation. -/
def requiredErrs (input : List (Str × JSValue)) (required : List Str) : List Str :=
  required.foldr (fun f acc => reqOne input f ++ acc) []

/-- All errors of the per-field pass, as a concatenation. -/
def declaredErrs (props : List (Str × FieldSchema)) (input : List (Str × JSValue)) : List Str :=
  input.foldr (fun kv acc => entryOne props kv ++ acc) []

/-! ### Association-list lemmas -/

theorem lookupKey_setKey_self {α : Type} (m : List (Str × α)) (k : Str) (v : α) :
    lookupKey (setKey m k v) k = some v := by
  induction m with
  | nil => simp [setKey, lookupKey]
  | cons hd tl ih =>
    obtain ⟨k', v'⟩ := hd
    by_cases h : k' = k
    · simp [setKey, h, lookupKey]
    · simp [setKey, h, lookupKey, ih]

theorem lookupKey_setKey_ne {α : Type} (m : List (Str × α)) (k k' : Str) (v : α)
    (h : k' ≠ k) : lookupKey (setKey m k' v) k = lookupKey m k := by
  induction m with
  | nil => simp [setKey, lookupKey, h]
  | cons hd tl ih =>
    obtain ⟨k0, v0⟩ := hd
    by_cases h0 : k0 = k'
    · simp [setKey, h0, lookupKey, h]
    · simp [setKey, h0, lookupKey, ih]

/-! ### The CLI loop: the looked-up value of a key set on the command line -/

theorem applyCliArgs_cons (init : List (Str × JSValue)) (a : Str) (args : List Str) :
    applyCliArgs init (a :: args) = applyCliArgs (cliStep init a) args := by
  simp [applyCliArgs, cliStep]

theorem lookupKey_applyCliArgs_of_no_setter (args : List Str) (k : Str)
    (h : ∀ a ∈ args, ∀ raw, cliKeyVal a ≠ some (k, raw)) (m : List (Str × JSValue)) :
    lookupKey (applyCliArgs m args) k = lookupKey m k := by
  induction args generalizing m with
  | nil => simp [applyCliArgs]
  | cons a rest ih =>
    rw [applyCliArgs_cons]
    rw [ih (fun b hb raw => h b (List.mem_cons_of_mem a hb) raw)]
    unfold cliStep
    cases hc : cliKeyVal a with
    | none => rfl
    | some kv =>
      obtain ⟨k', raw⟩ := kv
      have hne : k' ≠ k := by
        intro he
        exact h a (List.mem_cons_self a rest) raw (by rw [hc, he])
      exact lookupKey_setKey_ne m k k' (coerceValue raw) hne

theorem lookupKey_applyCliArgs_of_setter (args : List Str) (k : Str)
    (h : ∃ a ∈ args, ∃ raw, cliKeyVal a = some (k, raw)) :
    ∃ raw2 a2, a2 ∈ args ∧ cliKeyVal a2 = some (k, raw2) ∧
      ∀ init, lookupKey (applyCliArgs init args) k = some (coerceValue raw2) := by
  induction args with
  | nil => simp at h
  | cons a rest ih =>
    by_cases hrest : ∃ b ∈ rest, ∃ raw, cliKeyVal b = some (k, raw)
    · obtain ⟨raw2, a2, ha2, hc2, hval⟩ := ih hrest
      exact ⟨raw2, a2, List.mem_cons_of_mem a ha2, hc2, fun init => by
        rw [applyCliArgs_cons]; exact hval (cliStep init a)⟩
    · obtain ⟨b, hb, raw, hcb⟩ := h
      rcases List.mem_cons.mp hb with hba | hbr
      · subst hba
        refine ⟨raw, b, List.mem_cons_self b rest, hcb, fun init => ?_⟩
        rw [applyCliArgs_cons]
        have hnone : ∀ c ∈ rest, ∀ raw', cliKeyVal c ≠ some (k, raw') := by
          intro c hc raw' he
          exact hrest ⟨c, hc, raw', he⟩
        rw [lookupKey_applyCliArgs_of_no_setter rest k hnone]
        unfold cliStep
        rw [hcb]
        exact lookupKey_setKey_self init k (coerceValue raw)
      · exact absurd ⟨b, hbr, raw, hcb⟩ hrest

theorem parseInputArgs_ok_shape (fs : FileSys) (args : List Str)
    (m : List (Str × JSValue)) (h : parseInputArgs fs args = .ok m) :
    ∃ base, m = applyCliArgs base args := by
  unfold parseInputArgs at h
  cases hl : loadFileInput fs args with
  | error e => rw [hl] at h; exact absurd h (by simp)
  | ok b =>
    rw [hl] at h
    simp at h
    exact ⟨b, h.symm⟩

/-- C1. For every file system and argument list, and for every key that some
CLI `--key=value` token supplies, the merged `ParsedInput` produced by
`parseInputArgs` maps that key to what the CLI loop alone would produce — some
CLI-supplied coerced value — never the file's value: the file entries are
applied first and every CLI key overwrites on top, so the looked-up value is
independent of the file's contribution. -/
theorem parseInputArgs_cli_wins (fs : FileSys) (args : List Str) (k : Str)
    (a : Str) (raw : Str) (ha : a ∈ args) (hk : cliKeyVal a = some (k, raw))
    (m : List (Str × JSValue)) (hm : parseInputArgs fs args = .ok m) :
    lookupKey m k = lookupKey (applyCliArgs [] args) k ∧
    ∃ raw2 a2, a2 ∈ args ∧ cliKeyVal a2 = some (k, raw2) ∧
      lookupKey m k = some (coerceValue raw2) := by
  obtain ⟨base, hbase⟩ := parseInputArgs_ok_shape fs args m hm
  obtain ⟨raw2, a2, ha2, hc2, hval⟩ :=
    lookupKey_applyCliArgs_of_setter args k ⟨a, ha, raw, hk⟩
  subst hbase
  exact ⟨(hval base).trans (hval []).symm, raw2, a2, ha2, hc2, hval base⟩

/-- Witness for C1: the input file supplies `prompt` and `width: 1`, the
command line supplies `--width=512`; the merged input maps `width` to the
CLI's coerced 512, not the file's 1. -/
theorem parseInputArgs_cli_wins_witness :
    lookupKey [("prompt".data, .str "a cat".data), ("width".data, .num (.fin 512 0))]
        "width".data =
      lookupKey (applyCliArgs [] ["--input-file=in.json".data, "--width=512".data])
        "width".data ∧
    ∃ raw2 a2, a2 ∈ ["--input-file=in.json".data, "--width=512".data] ∧
      cliKeyVal a2 = some ("width".data, raw2) ∧
      lookupKey [("prompt".data, .str "a cat".data), ("width".data, .num (.fin 512 0))]
          "width".data =
        some (coerceValue raw2) :=
  parseInputArgs_cli_wins
    { resolve := fun p => "/cwd/".data ++ p,
      read := fun p =>
        if p = "/cwd/in.json".data
        then some "\x7b\"prompt\": \"a cat\", \"width\": 1\x7d".data else none }
    ["--input-file=in.json".data, "--width=512".data]
    "width".data "--width=512".data "512".data
    (by simp) rfl
    [("prompt".data, .str "a cat".data), ("width".data, .num (.fin 512 0))] rfl

/-- C2, counterexample. The claim says authentication recovery happens at most
once per command invocation. But the retry re-invokes `run()` itself
(line 139), so when the first retried attempt fails with another
authentication-class error, the nested activation recovers again: with a body
that throws an authentication error on its first two attempts and then
succeeds, the single command invocation performs two recoveries and still
succeeds. -/
theorem runModel_two_recoveries :
    (runModel 3 (fun j => if j < 2 then .errAuth "unauthorized".data else .ok) 0).result
        = .success ∧
    (runModel 3 (fun j => if j < 2 then .errAuth "unauthorized".data else .ok) 0).totalRecoveries
        = 2 :=
  ⟨rfl, rfl⟩

/-- C2, amended. Each single activation of `run()` performs at most one
recovery of its own, and issues exactly one retry per recovery; in particular
an error thrown by the retried attempt is caught by the outer catch-all
without a second recovery in that activation. Across the whole command
invocation, however, recovery is once per activation, not once overall (see
the counterexample). -/
theorem runModel_direct_recovery_once (fuel : Nat) (body : Nat → BodyOutcome) (k : Nat) :
    (runModel fuel body k).directRecoveries ≤ 1 ∧
    (runModel fuel body k).directRetries = (runModel fuel body k).directRecoveries := by
  cases fuel with
  | zero => simp [runModel]
  | succ n =>
    cases h : body k with
    | ok => simp [runModel, h]
    | errOther msg => simp [runModel, h]
    | errAuth msg =>
      simp only [runModel, h]
      cases (runModel n body (k + 1)).result <;> simp

/-- C3. Type coercion of a CLI value follows the exact precedence of the
source: a successful full JSON parse wins; otherwise the exact literals
`true`, `false` and `null`; otherwise a value whose `Number(...)` conversion
is not `NaN` and whose trimmed text is non-empty becomes that number;
otherwise the original string is kept. Concretely, `512` coerces to the
number 512, `a cat` to the string `a cat`, `true` to boolean true and
`["a","b"]` to the two-element string array. `coerceValue` is a total
function, so no input throws. -/
theorem coerceValue_precedence :
    (∀ s v, jsonParse s = some v → coerceValue s = v) ∧
    (∀ s, jsonParse s = none → s = "true".data → coerceValue s = .bool true) ∧
    (∀ s, jsonParse s = none → s = "false".data → coerceValue s = .bool false) ∧
    (∀ s, jsonParse s = none → s = "null".data → coerceValue s = .null) ∧
    (∀ s, jsonParse s = none → s ≠ "true".data → s ≠ "false".data → s ≠ "null".data →
      JSNum.isNaNb (strToNumber s) = false → jsTrim s ≠ [] →
      coerceValue s = .num (strToNumber s)) ∧
    (∀ s, jsonParse s = none → s ≠ "true".data → s ≠ "false".data → s ≠ "null".data →
      (JSNum.isNaNb (strToNumber s) = true ∨ jsTrim s = []) →
      coerceValue s = .str s) ∧
    coerceValue "512".data = .num (.fin 512 0) ∧
    coerceValue "a cat".data = .str "a cat".data ∧
    coerceValue "true".data = .bool true ∧
    coerceValue "[\"a\",\"b\"]".data = .arr [.str "a".data, .str "b".data] := by
  refine ⟨?_, ?_, ?_, ?_, ?_, ?_, rfl, rfl, rfl, rfl⟩
  · intro s v h; simp [coerceValue, h]
  · intro s h he; subst he; rfl
  · intro s h he; subst he; rfl
  · intro s h he; subst he; rfl
  · intro s h h1 h2 h3 hnan htrim
    simp [coerceValue, h, h1, h2, h3, hnan, htrim]
  · intro s h h1 h2 h3 hfk
    rcases hfk with hnan | htrim
    · simp [coerceValue, h, h1, h2, h3, hnan]
    · simp [coerceValue, h, h1, h2, h3, htrim]

/-- Witness for C3: `a cat` is not JSON, not a keyword, and `Number('a cat')`
is `NaN`, so the string-fallback clause of the theorem applies. -/
theorem coerceValue_precedence_witness :
    coerceValue "a cat".data = .str "a cat".data :=
  coerceValue_precedence.2.2.2.2.2.1 "a cat".data rfl (by decide) (by decide) (by decide)
    (Or.inl rfl)

/-! ### Lemmas for the decomposition of the validation report -/

theorem foldl_append_form {α β : Type} (g : α → List β) :
    ∀ (l : List α) (acc : List β),
      l.foldl (fun e x => e ++ g x) acc = acc ++ l.foldr (fun x r => g x ++ r) []
  | [], acc => by simp
  | a :: l, acc => by
    simp only [List.foldl_cons, List.foldr_cons]
    rw [foldl_append_form g l (acc ++ g a)]
    simp

theorem validateInput_errors_decomp (input : List (Str × JSValue)) (schema : SchemaD) :
    (validateInput input schema).2 =
      requiredErrs input schema.required ++ declaredErrs schema.properties input := by
  unfold validateInput requiredErrs declaredErrs
  have h1 : schema.required.foldl
      (fun errs field =>
        if isMissingVal (lookupKey input field) then errs ++ [msgMissing field] else errs) [] =
      schema.required.foldl (fun errs field => errs ++ reqOne input field) [] := by
    apply List.foldl_ext
    intro errs field _
    unfold reqOne
    by_cases h : isMissingVal (lookupKey input field) <;> simp [h]
  have h2 : ∀ acc : List Str, input.foldl
      (fun errs kv =>
        match lookupKey schema.properties kv.1 with
        | none => errs
        | some fs => errs ++ fieldErrors kv.1 kv.2 fs) acc =
      input.foldl (fun errs kv => errs ++ entryOne schema.properties kv) acc := by
    intro acc
    apply List.foldl_ext
    intro errs kv _
    unfold entryOne
    cases lookupKey schema.properties kv.1 <;> simp
  simp only [h1, h2]
  rw [foldl_append_form (reqOne input), foldl_append_form (entryOne schema.properties)]
  simp

theorem validateInput_valid_iff (input : List (Str × JSValue)) (schema : SchemaD) :
    (validateInput input schema).1 = true ↔ (validateInput input schema).2 = [] := by
  unfold validateInput
  simp [List.isEmpty_iff]

theorem mem_requiredErrs (input : List (Str × JSValue)) (required : List Str) (field : Str)
    (hf : field ∈ required) (hm : isMissingVal (lookupKey input field) = true) :
    msgMissing field ∈ requiredErrs input required := by
  induction required with
  | nil => simp at hf
  | cons r rest ih =>
    unfold requiredErrs
    simp only [List.foldr_cons]
    rcases List.mem_cons.mp hf with he | hr
    · subst he
      simp [reqOne, hm]
    · exact List.mem_append_right _ (ih hr)

theorem mem_declaredErrs (props : List (Str × FieldSchema)) (input : List (Str × JSValue))
    (kv : Str × JSValue) (e : Str) (hkv : kv ∈ input) (he : e ∈ entryOne props kv) :
    e ∈ declaredErrs props input := by
  induction input with
  | nil => simp at hkv
  | cons hd tl ih =>
    unfold declaredErrs
    simp only [List.foldr_cons]
    rcases List.mem_cons.mp hkv with h1 | h2
    · subst h1
      exact List.mem_append_left _ he
    · exact List.mem_append_right _ (ih h2)

theorem mem_validateInput_of_fieldError (input : List (Str × JSValue)) (schema : SchemaD)
    (key : Str) (value : JSValue) (fs : FieldSchema) (e : Str)
    (hin : (key, value) ∈ input) (hprop : lookupKey schema.properties key = some fs)
    (he : e ∈ fieldErrors key value fs) :
    e ∈ (validateInput input schema).2 := by
  rw [validateInput_errors_decomp]
  apply List.mem_append_right
  apply mem_declaredErrs schema.properties input (key, value) e hin
  unfold entryOne
  simpa [hprop] using he

/-- C4. `validateInput` never short-circuits: the report's error list is the
concatenation of every required-field contribution and every declared-field
contribution, so each violation appears regardless of the others; `valid` is
true exactly when that accumulated list is empty; and concretely a
missing-required violation and a range violation arising together both appear
in the one report. -/
theorem validateInput_no_short_circuit :
    (∀ (input : List (Str × JSValue)) (schema : SchemaD),
      (validateInput input schema).2 =
        requiredErrs input schema.required ++ declaredErrs schema.properties input) ∧
    (∀ (input : List (Str × JSValue)) (schema : SchemaD),
      (validateInput input schema).1 = true ↔ (validateInput input schema).2 = []) ∧
    validateInput [("width".data, .num (.fin 2048 0))]
        { properties := [("prompt".data, { type := some "string".data }),
                         ("width".data, { type := some "integer".data,
                                          maximum := some (.fin 1024 0) })],
          required := ["prompt".data] } =
      (false, [msgMissing "prompt".data, msgMax "width".data (.fin 1024 0)]) :=
  ⟨validateInput_errors_decomp, validateInput_valid_iff, rfl⟩

/-- Witness for C4: the equivalence instantiated at the report that holds both
a missing-required error and a range error. -/
theorem validateInput_no_short_circuit_witness :
    (validateInput [("width".data, .num (.fin 2048 0))]
        { properties := [("prompt".data, { type := some "string".data }),
                         ("width".data, { type := some "integer".data,
                                          maximum := some (.fin 1024 0) })],
          required := ["prompt".data] }).1 = true ↔
    (validateInput [("width".data, .num (.fin 2048 0))]
        { properties := [("prompt".data, { type := some "string".data }),
                         ("width".data, { type := some "integer".data,
                                          maximum := some (.fin 1024 0) })],
          required := ["prompt".data] }).2 = [] :=
  validateInput_no_short_circuit.2.1 _ _

/-- C7. For every field name listed in `schema.required`, if the field is
absent from the input, or present with `undefined` or `null`, the report
contains the missing-required-field error naming it; and when only such a
violation exists, the report holds exactly that one error. -/
theorem validateInput_missing_required :
    (∀ (input : List (Str × JSValue)) (schema : SchemaD) (field : Str),
      field ∈ schema.required →
      (lookupKey input field = none ∨ lookupKey input field = some .undef ∨
        lookupKey input field = some .null) →
      msgMissing field ∈ (validateInput input schema).2) ∧
    validateInput []
        { properties := [("prompt".data, { type := some "string".data })],
          required := ["prompt".data] } =
      (false, [msgMissing "prompt".data]) := by
  refine ⟨?_, rfl⟩
  intro input schema field hf hv
  have hm : isMissingVal (lookupKey input field) = true := by
    rcases hv with h | h | h <;> rw [h] <;> rfl
  rw [validateInput_errors_decomp]
  exact List.mem_append_left _ (mem_requiredErrs input schema.required field hf hm)

/-- Witness for C7: a schema requiring `prompt` and an empty input. -/
theorem validateInput_missing_required_witness :
    msgMissing "prompt".data ∈
      (validateInput []
        { properties := [("prompt".data, { type := some "string".data })],
          required := ["prompt".data] }).2 :=
  validateInput_missing_required.1 []
    { properties := [("prompt".data, { type := some "string".data })],
      required := ["prompt".data] }
    "prompt".data (by simp) (Or.inl rfl)

/-- C5, counterexample. The claim covers the declared type `"array"`, but the
source's type check has no `array` branch at all: a field declared as
`type: "array"` whose value is the number 5 — a runtime type mismatch —
produces no error, and the report is valid. -/
theorem validateInput_array_mismatch_unreported :
    validateInput [("tags".data, .num (.fin 5 0))]
        { properties := [("tags".data, { type := some "array".data })], required := [] } =
      (true, []) := rfl

/-- C5, amended. Type mismatches are reported for the four types the source
checks — `"string"`, `"number"`, `"integer"` and `"boolean"` (the numeric two
accepting any numeric value) — with an error naming the field, the expected
type and the `typeof` of the actual value; a declared `"array"` type is never
type-checked and contributes no error. -/
theorem validateInput_type_mismatch :
    (∀ (input : List (Str × JSValue)) (schema : SchemaD) (key : Str) (value : JSValue)
        (fs : FieldSchema),
      (key, value) ∈ input → lookupKey schema.properties key = some fs →
      (((fs.type = some "number".data ∨ fs.type = some "integer".data) →
        isNumberV value = false →
        msgType key "number".data value ∈ (validateInput input schema).2) ∧
       (fs.type = some "string".data → isStringV value = false →
        msgType key "string".data value ∈ (validateInput input schema).2) ∧
       (fs.type = some "boolean".data → isBoolV value = false →
        msgType key "boolean".data value ∈ (validateInput input schema).2))) ∧
    (∀ (key : Str) (value : JSValue) (fs : FieldSchema),
      fs.type = some "array".data → fieldErrors key value fs = []) := by
  constructor
  · intro input schema key value fs hin hprop
    refine ⟨?_, ?_, ?_⟩
    · intro htype hmis
      apply mem_validateInput_of_fieldError input schema key value fs _ hin hprop
      unfold fieldErrors
      rw [if_pos (Or.symm htype), hmis]
      simp
    · intro htype hmis
      apply mem_validateInput_of_fieldError input schema key value fs _ hin hprop
      unfold fieldErrors
      rw [if_neg (by rw [htype]; decide), if_pos htype, hmis]
      simp
    · intro htype hmis
      apply mem_validateInput_of_fieldError input schema key value fs _ hin hprop
      unfold fieldErrors
      rw [if_neg (by rw [htype]; decide), if_neg (by rw [htype]; decide),
        if_pos htype, hmis]
      simp
  · intro key value fs htype
    unfold fieldErrors
    rw [if_neg (by rw [htype]; decide), if_neg (by rw [htype]; decide),
      if_neg (by rw [htype]; decide)]

/-- Witness for C5: a string-declared field holding the number 5 yields the
type-mismatch error naming the field, `string`, and `number`. -/
theorem validateInput_type_mismatch_witness :
    msgType "style".data "string".data (.num (.fin 5 0)) ∈
      (validateInput [("style".data, .num (.fin 5 0))]
        { properties := [("style".data, { type := some "string".data })],
          required := [] }).2 :=
  ((validateInput_type_mismatch.1 [("style".data, .num (.fin 5 0))]
      { properties := [("style".data, { type := some "string".data })], required := [] }
      "style".data (.num (.fin 5 0)) { type := some "string".data }
      (by simp) rfl).2.1) rfl rfl

/-- C10. For a field declared `type: "string"` with an `enum`, the enum
membership check runs even when the type check has already failed: a non-string
value outside the enum yields both the type-mismatch error and the enum error
for the same field, as the concrete report for the number 5 against
`["a","b"]` shows. -/
theorem validateInput_enum_after_type_mismatch :
    (∀ (input : List (Str × JSValue)) (schema : SchemaD) (key : Str) (value : JSValue)
        (fs : FieldSchema) (l : List JSValue),
      (key, value) ∈ input → lookupKey schema.properties key = some fs →
      fs.type = some "string".data → fs.enum = some l →
      isStringV value = false → jsIncludes l value = false →
      msgType key "string".data value ∈ (validateInput input schema).2 ∧
      msgEnum key l ∈ (validateInput input schema).2) ∧
    validateInput [("style".data, .num (.fin 5 0))]
        { properties := [("style".data,
            { type := some "string".data,
              enum := some [.str "a".data, .str "b".data] })],
          required := [] } =
      (false, [msgType "style".data "string".data (.num (.fin 5 0)),
               msgEnum "style".data [.str "a".data, .str "b".data]]) := by
  refine ⟨?_, rfl⟩
  intro input schema key value fs l hin hprop htype henum hmis hincl
  have hshape : fieldErrors key value fs =
      [msgType key "string".data value] ++ [msgEnum key l] := by
    unfold fieldErrors
    rw [if_neg (by rw [htype]; decide), if_pos htype, hmis, henum]
    simp [hincl]
  constructor
  · apply mem_validateInput_of_fieldError input schema key value fs _ hin hprop
    rw [hshape]; simp
  · apply mem_validateInput_of_fieldError input schema key value fs _ hin hprop
    rw [hshape]; simp

/-- Witness for C10: the number 5 against a string field with enum
`["a","b"]` produces both errors. -/
theorem validateInput_enum_after_type_mismatch_witness :
    msgType "style".data "string".data (.num (.fin 5 0)) ∈
      (validateInput [("style".data, .num (.fin 5 0))]
        { properties := [("style".data,
            { type := some "string".data,
              enum := some [.str "a".data, .str "b".data] })],
          required := [] }).2 ∧
    msgEnum "style".data [.str "a".data, .str "b".data] ∈
      (validateInput [("style".data, .num (.fin 5 0))]
        { properties := [("style".data,
            { type := some "string".data,
              enum := some [.str "a".data, .str "b".data] })],
          required := [] }).2 :=
  validateInput_enum_after_type_mismatch.1
    [("style".data, .num (.fin 5 0))]
    { properties := [("style".data,
        { type := some "string".data,
          enum := some [.str "a".data, .str "b".data] })],
      required := [] }
    "style".data (.num (.fin 5 0))
    { type := some "string".data, enum := some [.str "a".data, .str "b".data] }
    [.str "a".data, .str "b".data]
    (by simp) rfl rfl rfl rfl rfl

/-! ### Unknown fields and the filter lemmas for C6 -/

theorem lookupKey_filter_ne {α : Type} (m : List (Str × α)) (k k' : Str) (h : k' ≠ k) :
    lookupKey (m.filter (fun kv => kv.1 != k)) k' = lookupKey m k' := by
  induction m with
  | nil => simp [lookupKey]
  | cons hd tl ih =>
    obtain ⟨k0, v0⟩ := hd
    by_cases h0 : k0 = k
    · subst h0
      have hne : ¬ k0 = k' := fun he => h (he ▸ rfl)
      simp only [List.filter_cons]
      simp [lookupKey, hne, ih]
    · simp only [List.filter_cons]
      by_cases h1 : k0 = k'
      · simp [lookupKey, h0, h1, h]
      · simp [lookupKey, h0, h1, ih]

theorem requiredErrs_filter (input : List (Str × JSValue)) (required : List Str) (k : Str)
    (hreq : k ∉ required) :
    requiredErrs (input.filter (fun kv => kv.1 != k)) required = requiredErrs input required := by
  induction required with
  | nil => rfl
  | cons r rest ih =>
    unfold requiredErrs
    simp only [List.foldr_cons]
    have hr : r ≠ k := fun he => hreq (he ▸ List.mem_cons_self r rest)
    have h1 : reqOne (input.filter (fun kv => kv.1 != k)) r = reqOne input r := by
      unfold reqOne
      rw [lookupKey_filter_ne input k r hr]
    rw [h1]
    have h2 := ih (fun hm => hreq (List.mem_cons_of_mem r hm))
    unfold requiredErrs at h2
    rw [h2]

theorem declaredErrs_filter (props : List (Str × FieldSchema)) (input : List (Str × JSValue))
    (k : Str) (hprop : lookupKey props k = none) :
    declaredErrs props (input.filter (fun kv => kv.1 != k)) = declaredErrs props input := by
  induction input with
  | nil => rfl
  | cons hd tl ih =>
    by_cases h0 : hd.1 = k
    · have he : entryOne props hd = [] := by
        unfold entryOne
        rw [h0, hprop]
      unfold declaredErrs
      unfold declaredErrs at ih
      simp [List.filter_cons, h0, he, ih]
    · unfold declaredErrs
      unfold declaredErrs at ih
      simp [List.filter_cons, h0, ih]

/-- C6, counterexample. The claim says an input field not declared in
`schema.properties` gets no error and cannot change `valid`. But `required`
is checked independently of `properties`: with `bar` required yet undeclared,
an input holding `bar: null` gets a report whose single error names `bar`,
and adding `bar: 1` to an otherwise empty input flips `valid` from false to
true. -/
theorem validateInput_unknown_field_claim_fails :
    validateInput [("foo".data, .num (.fin 1 0)), ("bar".data, .null)]
        { properties := [("foo".data, { type := some "number".data })],
          required := ["bar".data] } =
      (false, [msgMissing "bar".data]) ∧
    validateInput [("bar".data, .num (.fin 1 0))]
        { properties := [("foo".data, { type := some "number".data })],
          required := ["bar".data] } =
      (true, []) ∧
    validateInput []
        { properties := [("foo".data, { type := some "number".data })],
          required := ["bar".data] } =
      (false, [msgMissing "bar".data]) :=
  ⟨rfl, rfl, rfl⟩

/-- C6, amended. Unknown-field tolerance holds for fields that are undeclared
in `schema.properties` and also not listed in `schema.required`: removing
every entry of such a field leaves the whole validation report — errors and
`valid` flag — unchanged, so its presence neither produces an error nor
affects validity. The claim's own example stands: `{foo: 1, bar: 2}` against
a schema declaring only `foo` yields a clean report. -/
theorem validateInput_unknown_field_tolerance :
    (∀ (input : List (Str × JSValue)) (schema : SchemaD) (k : Str),
      lookupKey schema.properties k = none → k ∉ schema.required →
      validateInput (input.filter (fun kv => kv.1 != k)) schema = validateInput input schema) ∧
    validateInput [("foo".data, .num (.fin 1 0)), ("bar".data, .num (.fin 2 0))]
        { properties := [("foo".data, { type := some "number".data })], required := [] } =
      (true, []) := by
  refine ⟨?_, rfl⟩
  intro input schema k hprop hreq
  have e2 : (validateInput (input.filter (fun kv => kv.1 != k)) schema).2 =
      (validateInput input schema).2 := by
    rw [validateInput_errors_decomp, validateInput_errors_decomp,
      requiredErrs_filter input schema.required k hreq,
      declaredErrs_filter schema.properties input k hprop]
  have h1 : ∀ (i : List (Str × JSValue)) (s : SchemaD),
      (validateInput i s).1 = (validateInput i s).2.isEmpty := fun _ _ => rfl
  have e1 : (validateInput (input.filter (fun kv => kv.1 != k)) schema).1 =
      (validateInput input schema).1 := by
    rw [h1, h1, e2]
  exact Prod.ext e1 e2

/-- Witness for C6: filtering `bar` out of `{foo: 1, bar: 2}` does not change
the report when `bar` is neither declared nor required. -/
theorem validateInput_unknown_field_tolerance_witness :
    validateInput
        ([("foo".data, .num (.fin 1 0)), ("bar".data, .num (.fin 2 0))].filter
          (fun kv => kv.1 != "bar".data))
        { properties := [("foo".data, { type := some "number".data })], required := [] } =
      validateInput [("foo".data, .num (.fin 1 0)), ("bar".data, .num (.fin 2 0))]
        { properties := [("foo".data, { type := some "number".data })], required := [] } :=
  validateInput_unknown_field_tolerance.1
    [("foo".data, .num (.fin 1 0)), ("bar".data, .num (.fin 2 0))]
    { properties := [("foo".data, { type := some "number".data })], required := [] }
    "bar".data rfl (by simp)

/-- C8. The file-loading stage of `parseInputArgs`: a detected non-empty path
that does not exist fails with the file-not-found error carrying the resolved
path; an existing file whose content `JSON.parse` rejects fails with the
malformed-input error (the source interpolates the parser's message into it);
and when no input-file flag is present at all the file contributes nothing —
the result is exactly the CLI loop over an empty object. -/
theorem parseInputArgs_file_loading :
    (∀ (fs : FileSys) (args : List Str) (f : Str),
      findInputFile args = some f → f ≠ [] → fs.read (fs.resolve f) = none →
      parseInputArgs fs args = .error (.fileNotFound (fs.resolve f))) ∧
    (∀ (fs : FileSys) (args : List Str) (f content : Str),
      findInputFile args = some f → f ≠ [] → fs.read (fs.resolve f) = some content →
      jsonParse content = none →
      parseInputArgs fs args = .error (.invalidJson (fs.resolve f))) ∧
    (∀ (fs : FileSys) (args : List Str),
      findInputFile args = none →
      parseInputArgs fs args = .ok (applyCliArgs [] args)) := by
  refine ⟨?_, ?_, ?_⟩
  · intro fs args f hfind hne hread
    have hload : loadFileInput fs args = .error (.fileNotFound (fs.resolve f)) := by
      simp [loadFileInput, hfind, hne, hread]
    simp [parseInputArgs, hload]
  · intro fs args f content hfind hne hread hjson
    have hload : loadFileInput fs args = .error (.invalidJson (fs.resolve f)) := by
      simp [loadFileInput, hfind, hne, hread, hjson]
    simp [parseInputArgs, hload]
  · intro fs args hfind
    have hload : loadFileInput fs args = .ok [] := by
      simp [loadFileInput, hfind]
    simp [parseInputArgs, hload]

/-- Witness for C8: a file system with no files at all makes
`--input-file=in.json` fail with the file-not-found error. -/
theorem parseInputArgs_file_loading_witness :
    parseInputArgs { resolve := fun p => p, read := fun _ => none }
        ["--input-file=in.json".data] =
      .error (.fileNotFound "in.json".data) :=
  parseInputArgs_file_loading.1 { resolve := fun p => p, read := fun _ => none }
    ["--input-file=in.json".data] "in.json".data rfl (by decide) rfl

/-! ### Split and join lemmas for C9 -/

theorem jsStartsWith_append (p r : Str) : jsStartsWith (p ++ r) p = true := by
  induction p with
  | nil => cases r <;> rfl
  | cons c cs ih => simp [jsStartsWith, ih]

theorem jsSplit_ne_nil (sep : Char) (s : Str) : jsSplit sep s ≠ [] := by
  cases s with
  | nil => simp [jsSplit]
  | cons c cs =>
    unfold jsSplit
    by_cases h : (c == sep) = true
    · simp [h]
    · simp only [h]
      cases jsSplit sep cs <;> simp

theorem jsSplit_no_sep_append (sep : Char) (l r : Str)
    (h : l.all (fun c => c != sep) = true) :
    jsSplit sep (l ++ sep :: r) = l :: jsSplit sep r := by
  induction l with
  | nil => simp [jsSplit]
  | cons c cs ih =>
    simp only [List.all_cons, Bool.and_eq_true, bne_iff_ne] at h
    have hb : (c == sep) = false := by simp [h.1]
    have hi := ih h.2
    simp [jsSplit, hb, hi]

theorem jsSplit_headD (sep : Char) (s : Str) :
    (jsSplit sep s).headD [] = s.takeWhile (fun c => c != sep) := by
  induction s with
  | nil => simp [jsSplit]
  | cons c cs ih =>
    by_cases hc : c = sep
    · subst hc
      simp [jsSplit, List.takeWhile]
    · have hb : (c == sep) = false := by simp [hc]
      cases h : jsSplit sep cs with
      | nil => exact absurd h (jsSplit_ne_nil sep cs)
      | cons p ps =>
        rw [h] at ih
        simp only [List.headD] at ih
        have hb2 : (c != sep) = true := by simp [bne, hb]
        simp [jsSplit, hb, h, List.takeWhile, hb2, ih]

theorem jsJoin_jsSplit (sep : Char) (s : Str) : jsJoin sep (jsSplit sep s) = s := by
  induction s with
  | nil => rfl
  | cons c cs ih =>
    by_cases hc : c = sep
    · subst hc
      cases h : jsSplit c cs with
      | nil => exact absurd h (jsSplit_ne_nil c cs)
      | cons p ps =>
        rw [h] at ih
        simp [jsSplit, jsJoin, h, ih]
    · have hb : (c == sep) = false := by simp [hc]
      cases h : jsSplit sep cs with
      | nil => exact absurd h (jsSplit_ne_nil sep cs)
      | cons p ps =>
        rw [h] at ih
        cases ps with
        | nil => simp [jsSplit, hb, h, jsJoin]; simpa [jsJoin] using ih
        | cons q qs =>
          simp [jsSplit, hb, h, jsJoin]
          simpa [jsJoin] using ih

theorem getD_one_headD (x : Str) (l : List Str) : (x :: l).getD 1 [] = l.headD [] := by
  cases l <;> simp [List.getD]

/-- C9. The single-token input-file flag truncates its path at the first `=`:
for every `path`, scanning `--input-file=<path>` detects only the part of
`path` before its first `=` (the source takes `split('=')[1]`). Ordinary
`--key=value` tokens instead split on the first `=` only, rejoining the rest,
so `=` characters inside the value are preserved. Concretely
`--input-file=my=file.json` detects the path `my`, while `--prompt=a=b` maps
`prompt` to the full value `a=b`. -/
theorem inputFile_path_truncated_at_eq :
    (∀ path : Str, findInputFile ["--input-file=".data ++ path] =
      some (path.takeWhile (fun c => c != '='))) ∧
    (∀ k v : Str, k.all (fun c => c != '=') = true →
      jsStartsWith (("--".data ++ k) ++ '=' :: v) "--input-file=".data = false →
      cliKeyVal (("--".data ++ k) ++ '=' :: v) = some (k, v)) ∧
    findInputFile ["--input-file=my=file.json".data] = some "my".data ∧
    cliKeyVal "--prompt=a=b".data = some ("prompt".data, "a=b".data) := by
  refine ⟨?_, ?_, rfl, rfl⟩
  · intro path
    have harg : "--input-file=".data ++ path = "--input-file".data ++ '=' :: path := rfl
    have hpre : jsStartsWith ("--input-file=".data ++ path) "--input-file=".data = true :=
      jsStartsWith_append "--input-file=".data path
    unfold findInputFile
    rw [if_pos hpre, harg,
      jsSplit_no_sep_append '=' "--input-file".data path (by decide),
      getD_one_headD, jsSplit_headD]
  · intro k v hall hnotif
    have hpre : jsStartsWith (("--".data ++ k) ++ '=' :: v) "--".data = true := by
      rw [List.append_assoc]
      exact jsStartsWith_append "--".data (k ++ '=' :: v)
    have hhas : jsHasChar (("--".data ++ k) ++ '=' :: v) '=' = true := by
      unfold jsHasChar
      rw [List.any_eq_true]
      exact ⟨'=', List.mem_append_right _ (List.mem_cons_self _ _), by simp⟩
    have hdrop : (("--".data ++ k) ++ '=' :: v).drop 2 = k ++ '=' :: v := rfl
    unfold cliKeyVal
    rw [if_pos ⟨hpre, hhas, by rw [hnotif]; decide⟩, hdrop,
      jsSplit_no_sep_append '=' k v hall]
    simp [jsJoin_jsSplit]

/-- Witness for C9: the general `--key=value` clause applied to
`--prompt=a=b`. -/
theorem inputFile_path_truncated_at_eq_witness :
    cliKeyVal (("--".data ++ "prompt".data) ++ '=' :: "a=b".data) =
      some ("prompt".data, "a=b".data) :=
  inputFile_path_truncated_at_eq.2.1 "prompt".data "a=b".data (by decide) (by decide)

end Replicate
